import Mathlib

/-!
Shallow embedding of the fake data generation CLI (src/index.ts).

The program renders a record template a configured number of times into an
output sink, substituting mustache style tags of the form module.function
with values produced by a locale specific provider (the external faker-js
library).  The embedding below translates, function by function, the core
of src/index.ts:

  isValidLocale        (lines 118-122)
  getValueByKey        (lines 130-134)
  isValidTemplate      (lines 143-169)
  extractMustacheTags  (lines 176-183)
  getFileFormat        (lines 193-210)
  execute              (lines 223-252)

External collaborators are modelled as parameters: the faker provider
registry is a finite association list, generator invocations draw values
from an abstract stream (a function from generator id and invocation index
to a string), and the output sink is the list of arguments passed to the
write calls, in order.
-/

set_option autoImplicit false

deriving instance DecidableEq for Except

namespace Fake

/-- Opening brace character, written as a code point. -/
def lbrace : Char := Char.ofNat 123

/-- Closing brace character, written as a code point. -/
def rbrace : Char := Char.ofNat 125

/-- Value stored in a function slot of a provider module: either a zero
argument generator, identified by a numeric id, or some other value whose
JavaScript typeof is not function. -/
inductive FnVal where
  | fn (g : Nat) : FnVal
  | nonFn : FnVal
deriving DecidableEq

/-- Value stored in a module slot of a provider instance: either an object,
given by its own enumerable entries in insertion order, or some other value
whose JavaScript typeof is not object (this case also stands for null,
which the source excludes separately on line 154). -/
inductive ModVal where
  | obj (entries : List (String × FnVal)) : ModVal
  | nonObj : ModVal
deriving DecidableEq

/-- A faker instance: its own enumerable entries, in insertion order, as
seen by Object.entries in getValueByKey. -/
abbrev Faker := List (String × ModVal)

/-- The allFakers registry of the external faker-js library: an object
mapping locale keys to faker instances. -/
abbrev Registry := List (String × Faker)

/-- Errors raised through the err helper (src/index.ts lines 40-49),
identified by the ErrorMessage constructor used. -/
inductive Err where
  | invalidLocale (lang : String) : Err
  | invalidModule (lang mod : String) : Err
  | invalidFunction (lang func : String) : Err
  | invalidCsvTemplate : Err
  | missing (what : String) : Err
deriving DecidableEq

/-- The Extension enum (src/index.ts lines 15-19). -/
inductive Extension where
  | default : Extension
  | csv : Extension
  | json : Extension
deriving DecidableEq

/-- JavaScript split with a single character separator, as used by
template.split with a newline (line 199) and tag.split with a dot
(line 151).  Splitting the empty string yields one empty part. -/
def splitOnCharAux (sep : Char) : List Char → List Char → List (List Char)
  | [], cur => [cur.reverse]
  | c :: cs, cur =>
    if c = sep then cur.reverse :: splitOnCharAux sep cs []
    else splitOnCharAux sep cs (c :: cur)

/-- JavaScript string split on a one character separator. -/
def jsSplit (s : String) (sep : Char) : List String :=
  (splitOnCharAux sep s.data []).map String.mk

/-- Own enumerable property names of Object.prototype.  The JavaScript in
operator used on line 119 consults the whole prototype chain, so these
names test as present on any plain object such as allFakers. -/
def objectProtoKeys : List String :=
  ["constructor", "hasOwnProperty", "isPrototypeOf", "propertyIsEnumerable",
   "toLocaleString", "toString", "valueOf", "__defineGetter__",
   "__defineSetter__", "__lookupGetter__", "__lookupSetter__", "__proto__"]

/-- The test lang in allFakers (line 119): true when lang is an own key of
the registry or a property name inherited from Object.prototype. -/
def langInAllFakers (reg : Registry) (lang : String) : Bool :=
  reg.any (fun p => p.1 = lang) || objectProtoKeys.contains lang

/-- isValidLocale (lines 118-122): returns the lang key when the in test
succeeds, otherwise raises InvalidLocale. -/
def isValidLocale (reg : Registry) (lang : String) : Except Err String :=
  if langInAllFakers reg lang then .ok lang
  else .error (.invalidLocale lang)

/-- The indexing allFakers[key] on line 231.  For an own key this yields
the stored faker instance.  For a key inherited from Object.prototype it
yields a built in function or Object.prototype itself; such a value has no
own enumerable entries, and the code only ever inspects the instance
through Object.entries (see getValueByKey), so the empty entry list is an
exact model of that case. -/
def lookupFaker (reg : Registry) (lang : String) : Faker :=
  match reg.find? (fun p => p.1 = lang) with
  | some p => p.2
  | none => []

/-- getValueByKey (lines 130-134): scan Object.entries for the first entry
whose key equals the requested key; undefined becomes none. -/
def getValueByKey {α : Type} (obj : List (String × α)) (key : String) : Option α :=
  (obj.find? (fun p => p.1 = key)).map (fun p => p.2)

/-- Validation of one extracted tag, the body of the map callback inside
isValidTemplate (lines 150-163).  The tag is split on dots; mod is the
first part and func the second (the destructuring on line 151 ignores any
later parts).  The checks run in source order: mod null, module lookup and
typeof object, func null, function lookup and typeof function.  On success
the generator id is returned without invoking it. -/
def validateTag (lang : String) (faker : Faker) (tag : String) :
    Except Err (String × String × Nat) :=
  match (jsSplit tag '.')[0]?, (jsSplit tag '.')[1]? with
  | none, _ => .error (.missing "faker module")
  | some mod, funcOpt =>
    match getValueByKey faker mod with
    | some (ModVal.obj moduleRef) =>
      match funcOpt with
      | none => .error (.missing "faker function")
      | some func =>
        match getValueByKey moduleRef func with
        | some (FnVal.fn g) => .ok (mod, func, g)
        | _ => .error (.invalidFunction lang func)
    | _ => .error (.invalidModule lang mod)

/-- The tags.map pass of isValidTemplate (lines 149-163): validate every
extracted tag, in order; a thrown error propagates immediately and later
tags are not examined.  No generator is invoked during this pass. -/
def validateTags (lang : String) (faker : Faker) :
    List String → Except Err (List (String × String × Nat))
  | [] => .ok []
  | t :: ts =>
    match validateTag lang faker t with
    | .error e => .error e
    | .ok v =>
      match validateTags lang faker ts with
      | .error e => .error e
      | .ok vs => .ok (v :: vs)

/-- Whitespace class of the JavaScript regular expression escape for
spaces: ASCII whitespace plus the unicode space code points. -/
def isJsSpace (c : Char) : Bool :=
  c = ' ' || c = '\t' || c = '\n' || c = '\x0b' || c = '\x0c' || c = '\r' ||
  c.toNat = 0xA0 || c.toNat = 0x1680 ||
  (0x2000 ≤ c.toNat && c.toNat ≤ 0x200A) ||
  c.toNat = 0x2028 || c.toNat = 0x2029 || c.toNat = 0x202F ||
  c.toNat = 0x205F || c.toNat = 0x3000 || c.toNat = 0xFEFF

/-- Word or dot character, the repeated class of the tag capture group in
the extraction regular expression on line 177. -/
def isWordDotChar (c : Char) : Bool :=
  c.isAlphanum || c = '_' || c = '.'

/-- Mustache control characters recognized and stripped by the optional
first capture group on line 177. -/
def isCtrlChar (c : Char) : Bool :=
  c = '#' || c = '/' || c = '^' || c = '!'

/-- Tail of the extraction pattern: given the greedy capture of word or
dot characters and the text after it, require the capture to be nonempty,
skip optional whitespace and require the two closing braces.  All the
character classes of the pattern are pairwise disjoint and the closing
brace belongs to none of them, so this greedy reading is exactly the
backtracking regular expression semantics.  Returns the captured tag and
the text after the match. -/
def finishTagMatch (tagChars rest4 : List Char) :
    Option (String × List Char) :=
  if tagChars.isEmpty then none
  else
    let rest5 := rest4.dropWhile isJsSpace
    match rest5 with
    | d1 :: d2 :: rest6 =>
      if d1 = rbrace && d2 = rbrace then some (String.mk tagChars, rest6)
      else none
    | _ => none

/-- Matching after the two opening braces continued: whitespace, the
optional control character, whitespace, and then the capture handled by
finishTagMatch. -/
def matchAfterBraces (allowCtrl : Bool) (r : List Char) :
    Option (String × List Char) :=
  let rest1 := r.dropWhile isJsSpace
  let rest2 :=
    if allowCtrl then
      match rest1 with
      | c :: cs => if isCtrlChar c then cs else rest1
      | [] => rest1
    else rest1
  let rest3 := rest2.dropWhile isJsSpace
  finishTagMatch (rest3.takeWhile isWordDotChar)
    (rest3.dropWhile isWordDotChar)

/-- Matching of the whole extraction pattern at the head of the text: two
opening braces and then the rest of the pattern. -/
def matchTagAt (allowCtrl : Bool) (l : List Char) :
    Option (String × List Char) :=
  match l with
  | c1 :: c2 :: r =>
    if c1 = lbrace && c2 = lbrace then matchAfterBraces allowCtrl r
    else none
  | _ => none

/-- Addition to the JavaScript Set of captured tags (line 180): keeps
insertion order and discards values already present. -/
def addToSet (acc : List String) (t : String) : List String :=
  if t ∈ acc then acc else acc ++ [t]

/-- The matchAll scan of the template text (lines 179-181): at each
position try the pattern; on a match record the capture and continue after
the match, otherwise advance one character.  The fuel argument is the
length of the remaining text; every step consumes at least one character
and exactly one unit of fuel, so starting with the text length the fuel
never runs out. -/
def extractLoopF : Nat → List Char → List String → List String
  | 0, _, acc => acc
  | _ + 1, [], acc => acc
  | fuel + 1, c :: cs, acc =>
    match matchTagAt true (c :: cs) with
    | some (tag, rest) => extractLoopF fuel rest (addToSet acc tag)
    | none => extractLoopF fuel cs acc

/-- extractMustacheTags (lines 176-183): collect the distinct captures of
the pattern over the template into a set, spread it into an array and keep
the entries that are neither null nor empty (captures are never null or
empty, so the filter keeps everything; it is retained for fidelity). -/
def extractMustacheTags (template : String) : List String :=
  (extractLoopF template.data.length template.data []).filter
    (fun tag => tag != "")

/-- Resolved context handed to the renderer: module name to function name
to generated value, with JavaScript property insertion semantics. -/
abbrev Ctx := List (String × List (String × String))

/-- Property assignment on an inner module object of the context:
overwrite in place when the key exists, append otherwise. -/
def setFn (fns : List (String × String)) (func v : String) :
    List (String × String) :=
  if fns.any (fun p => p.1 = func) then
    fns.map (fun p => if p.1 = func then (p.1, v) else p)
  else fns ++ [(func, v)]

/-- The body of the reduce callback (lines 164-168): acc gets an empty
object at the module key when absent, then the invoked value is assigned
at the function key. -/
def ctxInsert (ctx : Ctx) (mod func v : String) : Ctx :=
  if ctx.any (fun p => p.1 = mod) then
    ctx.map (fun p => if p.1 = mod then (p.1, setFn p.2 func v) else p)
  else ctx ++ [(mod, setFn [] func v)]

/-- The tags.reduce pass of isValidTemplate (lines 164-168): invoke every
validated generator once, in tag order, and build the context.  Generator
invocations are the only probabilistic effect of the program; they are
modelled by the abstract stream vals, applied to the generator id and to a
global invocation counter that the fold threads through. -/
def buildCtx (vals : Nat → Nat → String)
    (entries : List (String × String × Nat)) (n : Nat) : Ctx × Nat :=
  entries.foldl
    (fun acc e => (ctxInsert acc.1 e.1 e.2.1 (vals e.2.2 acc.2), acc.2 + 1))
    ([], n)

/-- isValidTemplate (lines 143-169): extract the tags, validate them all
in the map pass and only then invoke the generators in the reduce pass.
The invocation counter enters as n and the advanced counter is returned
with the context. -/
def isValidTemplate (vals : Nat → Nat → String) (lang : String)
    (faker : Faker) (template : String) (n : Nat) :
    Except Err (Ctx × Nat) :=
  match validateTags lang faker (extractMustacheTags template) with
  | .error e => .error e
  | .ok entries => .ok (buildCtx vals entries n)

/-- Context lookup along the dot separated path of a rendered tag, as the
external Mustache renderer performs it; a missing path renders as the
empty string. -/
def ctxLookup (ctx : Ctx) (path : List String) : String :=
  match path with
  | [mod, func] =>
    match getValueByKey ctx mod with
    | some fns => (getValueByKey fns func).getD ""
    | none => ""
  | _ => ""

/-- Modelled from the spec: the external Mustache.render call (line 241)
is not part of this repository; per the specification it performs flat
substitution of the tags with the string form of the corresponding context
value, and section or block semantics are out of scope.  The scan below
replaces every occurrence of a double brace variable tag by its context
value and copies every other character unchanged.  Fuel as in the
extraction scan. -/
def renderLoopF (ctx : Ctx) : Nat → List Char → List Char
  | 0, chars => chars
  | _ + 1, [] => []
  | fuel + 1, c :: cs =>
    match matchTagAt false (c :: cs) with
    | some (tag, rest) =>
      (ctxLookup ctx (jsSplit tag '.')).data ++ renderLoopF ctx fuel rest
    | none => c :: renderLoopF ctx fuel cs

/-- Flat Mustache substitution of a template under a context. -/
def render (ctx : Ctx) (template : String) : String :=
  String.mk (renderLoopF ctx template.data.length template.data)

/-- getFileFormat (lines 193-210): header, footer, record separator and
record template for the chosen extension.  The csv case requires the
template to split into exactly two lines on the newline character and
fails with InvalidCsvTemplate otherwise. -/
def getFileFormat (template : String) (ext : Extension) :
    Except Err (String × String × String × String) :=
  match ext with
  | .csv =>
    let templateParts := jsSplit template '\n'
    if templateParts.length ≠ 2 then .error .invalidCsvTemplate
    else .ok (templateParts[0]?.getD "", "", "\n", templateParts[1]?.getD "")
  | .json => .ok ("[", "]", ",\n", template)
  | .default => .ok ("", "", "\n", template)

/-- One argument of a writeStream.write call, tagged by the statement that
issued it.  A record write carries the rendered record and whether the
separator was appended to it; bytes below recovers the exact string the
source passes to write. -/
inductive WriteArg where
  | headerW (s : String) : WriteArg
  | recordW (rendered : String) (withSep : Bool) : WriteArg
  | footerW (s : String) : WriteArg
deriving DecidableEq

/-- The exact string passed to the write call for an event, given the
record separator of the run. -/
def WriteArg.bytes (sep : String) : WriteArg → String
  | headerW s => s
  | recordW r b => r ++ (if b then sep else "")
  | footerW s => s

/-- Concatenation of all bytes written to the sink. -/
def outBytes (sep : String) (evs : List WriteArg) : String :=
  String.join (evs.map (WriteArg.bytes sep))

/-- Whether an event is a record write that carries the separator. -/
def WriteArg.hasSep : WriteArg → Bool
  | recordW _ b => b
  | _ => false

/-- Number of write events that carry the record separator. -/
def sepWriteCount (evs : List WriteArg) : Nat :=
  evs.countP (fun e => e.hasSep)

/-- The statement header ?? writeStream.write(header + newline) on line
239.  A nullish coalescing expression evaluates its right operand only
when the left one is null or undefined; header is always a string there,
so the write call is dead code and no header event is ever produced.  The
none branch records what the write would pass were header undefined. -/
def nullishHeaderWrite (header : Option String) : List WriteArg :=
  match header with
  | some _ => []
  | none => [WriteArg.headerW "undefined\n"]

/-- The for loop of execute (lines 240-246), running k more iterations
with current index i and invocation counter n; total is the full record
count used by the last index test on line 245.  Each iteration validates
the record template again, invokes the generators, renders, and issues one
write with the rendered record plus the separator unless the index is the
last.  A validation failure aborts immediately: the events so far stay
written and the error propagates. -/
def runLoopAux (vals : Nat → Nat → String) (lang : String) (faker : Faker)
    (recordTemplate : String) (total : Nat) :
    Nat → Nat → Nat → List WriteArg × Nat × Option Err
  | 0, _, n => ([], n, none)
  | k + 1, i, n =>
    match isValidTemplate vals lang faker recordTemplate n with
    | .error e => ([], n, some e)
    | .ok ctxn =>
      let ev := WriteArg.recordW (render ctxn.1 recordTemplate)
        (!(total - 1 == i))
      let rest := runLoopAux vals lang faker recordTemplate total k (i + 1)
        ctxn.2
      (ev :: rest.1, rest.2.1, rest.2.2)

/-- execute (lines 223-252).  In source order: validate the locale and
fetch the faker instance (line 231), read the template (external, a
parameter here), compute the file format (line 234), open the sink, run
the dead header write (line 239), run the record loop (lines 240-246) and
write the footer (line 247).  The result is the list of write call
arguments together with the error that aborted the run, if any. -/
def execute (vals : Nat → Nat → String) (reg : Registry) (template : String)
    (totalRecords : Nat) (lang : String) (ext : Extension) :
    List WriteArg × Option Err :=
  match isValidLocale reg lang with
  | .error e => ([], some e)
  | .ok key =>
    let faker := lookupFaker reg key
    match getFileFormat template ext with
    | .error e => ([], some e)
    | .ok fmt =>
      let header := fmt.1
      let footer := fmt.2.1
      let recordTemplate := fmt.2.2.2
      let headerEvs := nullishHeaderWrite (some header)
      let res := runLoopAux vals lang faker recordTemplate totalRecords
        totalRecords 0 0
      match res.2.2 with
      | some e => (headerEvs ++ res.1, some e)
      | none => (headerEvs ++ res.1 ++ [WriteArg.footerW footer], none)

/-- Modelled from the spec: a fragment of the external faker-js provider
instance for the locale en, which is not part of this repository.  The
specification names the person module with a firstName function as an
existing capability and bogus entries as absent ones; only the shape
matters for the theorems below, which otherwise quantify over arbitrary
instances. -/
def enFaker : Faker :=
  [("person", ModVal.obj [("firstName", FnVal.fn 0), ("lastName", FnVal.fn 1)]),
   ("number", ModVal.obj [("int", FnVal.fn 2)])]

/-- Modelled from the spec: the registry restricted to the locale en. -/
def enRegistry : Registry := [("en", enFaker)]

/-- A concrete generator value stream for closed instances: every
invocation returns the string v. -/
def valsConst : Nat → Nat → String := fun _ _ => "v"

/-! Helper lemmas about the embedded operations. -/

/-- The reduce pass advances the invocation counter by exactly one step
per validated entry: every generator is invoked exactly once. -/
theorem buildCtx_snd (vals : Nat → Nat → String)
    (entries : List (String × String × Nat)) (n : Nat) :
    (buildCtx vals entries n).2 = n + entries.length := by
  suffices h : ∀ (l : List (String × String × Nat)) (c : Ctx) (m : Nat),
      (l.foldl
        (fun acc e => (ctxInsert acc.1 e.1 e.2.1 (vals e.2.2 acc.2), acc.2 + 1))
        (c, m)).2 = m + l.length by
    simpa [buildCtx] using h entries [] n
  intro l
  induction l with
  | nil => intro c m; simp
  | cons e es ih =>
    intro c m
    rw [List.foldl_cons, ih]
    simp only [List.length_cons]
    omega

/-- When every tag validates, isValidTemplate builds the context from the
current counter, at every counter value. -/
theorem isValidTemplate_ok (vals : Nat → Nat → String) (lang : String)
    (faker : Faker) (template : String)
    (entries : List (String × String × Nat))
    (hv : validateTags lang faker (extractMustacheTags template) = .ok entries)
    (n : Nat) :
    isValidTemplate vals lang faker template n = .ok (buildCtx vals entries n) := by
  unfold isValidTemplate
  rw [hv]

/-- A successful isValidTemplate call yields a successful validation pass. -/
theorem isValidTemplate_ok_inv (vals : Nat → Nat → String) (lang : String)
    (faker : Faker) (template : String) (n : Nat) (p : Ctx × Nat)
    (h : isValidTemplate vals lang faker template n = .ok p) :
    ∃ entries, validateTags lang faker (extractMustacheTags template) = .ok entries := by
  unfold isValidTemplate at h
  cases hv : validateTags lang faker (extractMustacheTags template) with
  | error e => rw [hv] at h; cases h
  | ok entries => exact ⟨entries, rfl⟩

/-- Full unrolling of the record loop when the template validates: the
loop emits one record write per index, the context of the j-th iteration
is rebuilt from the invocation counter reached after j full records, the
separator flag is set except at the last index, the final counter has
advanced by one invocation per entry per record, and no error occurs. -/
theorem runLoopAux_ok (vals : Nat → Nat → String) (lang : String)
    (faker : Faker) (t : String) (total : Nat)
    (entries : List (String × String × Nat))
    (hv : validateTags lang faker (extractMustacheTags t) = .ok entries) :
    ∀ (k i n : Nat), runLoopAux vals lang faker t total k i n =
      ((List.range k).map (fun j =>
          WriteArg.recordW
            (render (buildCtx vals entries (n + j * entries.length)).1 t)
            (!(total - 1 == i + j))),
        n + k * entries.length, none) := by
  intro k
  induction k with
  | zero => intro i n; simp [runLoopAux]
  | succ k ih =>
    intro i n
    rw [runLoopAux, isValidTemplate_ok vals lang faker t entries hv n]
    simp only [buildCtx_snd]
    rw [ih (i + 1) (n + entries.length)]
    simp only [List.range_succ_eq_map, List.map_cons, List.map_map,
      Prod.mk.injEq, List.cons.injEq]
    refine ⟨⟨by simp, ?_⟩, by ring, trivial⟩
    apply List.map_congr_left
    intro j _
    simp only [Function.comp_apply, Nat.succ_eq_add_one]
    have h1 : n + entries.length + j * entries.length
        = n + (j + 1) * entries.length := by ring
    have h2 : i + 1 + j = i + (j + 1) := by omega
    rw [h1, h2]

/-! Claim theorems. -/

/-- C1: the claim says header and footer are each written exactly once,
and that for totalRecords = 0 the output is exactly the header followed by
the footer.  The code never writes the header: line 239 guards the write
with a nullish coalescing operator on a value that is always a string.
At the failing input (json format, template x, totalRecords 0, locale en)
the run succeeds, the only write event is the footer, and the bytes
written are the footer alone, not header followed by footer. -/
theorem c1_header_never_written :
    execute valsConst enRegistry "x" 0 "en" Extension.json
      = ([WriteArg.footerW "]"], none) ∧
    outBytes ",\n" [WriteArg.footerW "]"] = "]" ∧
    ("]" : String) ≠ "[" ++ "]" := by decide

/-- C2 counterexample: toString is not a key of the registry (whose only
key is en), yet the run with locale toString and totalRecords 0 completes
successfully instead of failing with InvalidLocale, because the
JavaScript in operator on line 119 also finds properties inherited from
Object.prototype. -/
theorem c2_locale_check_uses_prototype_chain :
    enRegistry.map Prod.fst = ["en"] ∧
    execute valsConst enRegistry "x" 0 "toString" Extension.default
      = ([WriteArg.footerW ""], none) := by decide

/-- C2 amended: for every locale string that is neither a key of the
provider registry nor the name of a property inherited from
Object.prototype, the run fails with InvalidLocale before any record is
generated and before any write call is issued: the event list is empty. -/
theorem c2_invalid_locale_fails_first (vals : Nat → Nat → String)
    (reg : Registry) (template : String) (totalRecords : Nat) (lang : String)
    (ext : Extension) (h : langInAllFakers reg lang = false) :
    execute vals reg template totalRecords lang ext
      = ([], some (Err.invalidLocale lang)) := by
  unfold execute isValidLocale
  rw [h]
  simp

/-- C2 witness: the amended theorem applied at the unknown locale of the
specification example. -/
theorem c2_invalid_locale_fails_first_witness :
    langInAllFakers enRegistry "xx-INVALID" = false ∧
    execute valsConst enRegistry "x" 5 "xx-INVALID" Extension.json
      = ([], some (Err.invalidLocale "xx-INVALID")) :=
  ⟨by decide, c2_invalid_locale_fails_first valsConst enRegistry "x" 5
    "xx-INVALID" Extension.json (by decide)⟩

/-- C3 counterexample: the template with the single dotless tag foo does
not fail with MissingField for the faker module; it fails with
InvalidModule, because the destructured first split part is the whole tag
and is never null (line 152), so the lookup of foo as a module runs and
fails first. -/
theorem c3_no_dot_tag_counterexample :
    execute valsConst enRegistry "\x7b\x7bfoo\x7d\x7d" 1 "en" Extension.default
      = ([], some (Err.invalidModule "en" "foo")) ∧
    Err.invalidModule "en" "foo" ≠ Err.missing "faker module" := by decide

/-- C3 amended: a tag with no dot never yields the MissingField error for
the faker module; it yields InvalidModule when its single segment is not
an object valued own property of the provider instance, and MissingField
for the faker function when it is. -/
theorem c3_no_dot_tag_amended (lang : String) (faker : Faker) (tag : String)
    (h : jsSplit tag '.' = [tag]) :
    validateTag lang faker tag ≠ .error (.missing "faker module") ∧
    validateTag lang faker tag =
      (match getValueByKey faker tag with
       | some (ModVal.obj _) => .error (.missing "faker function")
       | _ => .error (.invalidModule lang tag)) := by
  have h0 : (jsSplit tag '.')[0]? = some tag := by rw [h]; rfl
  have h1 : (jsSplit tag '.')[1]? = none := by rw [h]; rfl
  have hval : validateTag lang faker tag =
      (match getValueByKey faker tag with
       | some (ModVal.obj _) => .error (.missing "faker function")
       | _ => .error (.invalidModule lang tag)) := by
    unfold validateTag
    rw [h0, h1]
  refine ⟨?_, hval⟩
  rw [hval]
  cases hm : getValueByKey faker tag with
  | none => simp
  | some mv => cases mv <;> simp

/-- C3 witness: the amended theorem applied at the dotless tag foo over
the modelled en provider. -/
theorem c3_no_dot_tag_amended_witness :
    jsSplit "foo" '.' = ["foo"] ∧
    (validateTag "en" enFaker "foo" ≠ .error (.missing "faker module") ∧
     validateTag "en" enFaker "foo" =
       (match getValueByKey enFaker "foo" with
        | some (ModVal.obj _) => .error (.missing "faker function")
        | _ => .error (.invalidModule "en" "foo"))) :=
  ⟨by decide, c3_no_dot_tag_amended "en" enFaker "foo" (by decide)⟩

/-- C4: the claim says the json output for two records is the opening
bracket, the first record, comma newline, the second record and the
closing bracket.  Because the header write on line 239 is dead code, the
opening bracket is missing: at the failing input (json format, template x
with no tags, totalRecords 2, locale en) the write events are the two
records, the first carrying the separator, and the footer, and the bytes
differ from the claimed framing exactly by the missing opening bracket. -/
theorem c4_json_framing_missing_header :
    execute valsConst enRegistry "x" 2 "en" Extension.json
      = ([WriteArg.recordW "x" true, WriteArg.recordW "x" false,
          WriteArg.footerW "]"], none) ∧
    outBytes ",\n" [WriteArg.recordW "x" true, WriteArg.recordW "x" false,
        WriteArg.footerW "]"] = "x,\nx]" ∧
    ("x,\nx]" : String) ≠ "[" ++ "x" ++ ",\n" ++ "x" ++ "]" := by decide

/-- C7: when the template validates, the record loop run for total records
emits exactly one record write per index; the context of record i is
rebuilt by a fresh reduce pass whose invocation counter starts at i times
the number of tags, so every validated tag is invoked exactly once per
record, no value carries over between records, and the final counter is
total times the number of tags. -/
theorem c7_fresh_resolution_per_record (vals : Nat → Nat → String)
    (lang : String) (faker : Faker) (t : String) (total : Nat)
    (entries : List (String × String × Nat))
    (hv : validateTags lang faker (extractMustacheTags t) = .ok entries) :
    runLoopAux vals lang faker t total total 0 0 =
      ((List.range total).map (fun i =>
          WriteArg.recordW
            (render (buildCtx vals entries (i * entries.length)).1 t)
            (!(total - 1 == i))),
        total * entries.length, none) := by
  have h := runLoopAux_ok vals lang faker t total entries hv total 0 0
  simpa using h

/-- C7 witness: a two record run over the single tag person.firstName of
the modelled en provider invokes the generator once per record and renders
each record from its own context. -/
theorem c7_fresh_resolution_per_record_witness :
    validateTags "en" enFaker
      (extractMustacheTags "\x7b\x7bperson.firstName\x7d\x7d")
      = .ok [("person", "firstName", 0)] ∧
    runLoopAux valsConst "en" enFaker "\x7b\x7bperson.firstName\x7d\x7d" 2 2 0 0
      = ([WriteArg.recordW "v" true, WriteArg.recordW "v" false], 2, none) := by
  have h := c7_fresh_resolution_per_record valsConst "en" enFaker
    "\x7b\x7bperson.firstName\x7d\x7d" 2 [("person", "firstName", 0)] (by decide)
  refine ⟨by decide, ?_⟩
  rw [h]
  decide

/-- C9: validation of a tag depends only on the first two dot separated
segments (the destructuring on line 151 discards the rest), and extraction
admits a three segment tag; the listed split values show that the module
and function used are the first and second segment. -/
theorem c9_extra_segments_ignored :
    (∀ (lang : String) (faker : Faker) (t1 t2 : String),
      (jsSplit t1 '.')[0]? = (jsSplit t2 '.')[0]? →
      (jsSplit t1 '.')[1]? = (jsSplit t2 '.')[1]? →
      validateTag lang faker t1 = validateTag lang faker t2) ∧
    extractMustacheTags "\x7b\x7bperson.firstName.extra\x7d\x7d"
      = ["person.firstName.extra"] ∧
    (jsSplit "person.firstName.extra" '.')[0]? = some "person" ∧
    (jsSplit "person.firstName.extra" '.')[1]? = some "firstName" := by
  refine ⟨?_, by decide, by decide, by decide⟩
  intro lang faker t1 t2 h0 h1
  unfold validateTag
  rw [h0, h1]

/-- C9 witness: the three segment tag validates exactly like the
corresponding two segment tag. -/
theorem c9_extra_segments_ignored_witness :
    validateTag "en" enFaker "person.firstName.extra"
      = validateTag "en" enFaker "person.firstName" :=
  c9_extra_segments_ignored.1 "en" enFaker "person.firstName.extra"
    "person.firstName" (by decide) (by decide)

/-- C10: when any extracted tag of the record template fails validation,
the whole map pass fails before the reduce pass starts, so within that
record no generator is invoked: isValidTemplate propagates the error at
every counter value, and a loop iteration returns with the invocation
counter unchanged and no record written. -/
theorem c10_validate_before_invoke (vals : Nat → Nat → String)
    (lang : String) (faker : Faker) (template : String) (e : Err)
    (hv : validateTags lang faker (extractMustacheTags template) = .error e) :
    (∀ n, isValidTemplate vals lang faker template n = .error e) ∧
    (∀ total k i n, runLoopAux vals lang faker template total (k + 1) i n
      = ([], n, some e)) := by
  have hval : ∀ n, isValidTemplate vals lang faker template n = .error e := by
    intro n
    unfold isValidTemplate
    rw [hv]
  refine ⟨hval, ?_⟩
  intro total k i n
  rw [runLoopAux, hval n]

/-- C10 witness: a template whose only tag names an absent module fails
validation, and a loop iteration starting at counter value zero returns
with the counter still zero and no write event. -/
theorem c10_validate_before_invoke_witness :
    validateTags "en" enFaker
        (extractMustacheTags "\x7b\x7bbogus.fn\x7d\x7d")
      = .error (Err.invalidModule "en" "bogus") ∧
    isValidTemplate valsConst "en" enFaker "\x7b\x7bbogus.fn\x7d\x7d" 0
      = .error (Err.invalidModule "en" "bogus") ∧
    runLoopAux valsConst "en" enFaker "\x7b\x7bbogus.fn\x7d\x7d" 3 3 0 0
      = ([], 0, some (Err.invalidModule "en" "bogus")) := by
  have h := c10_validate_before_invoke valsConst "en" enFaker
    "\x7b\x7bbogus.fn\x7d\x7d" (Err.invalidModule "en" "bogus") (by decide)
  exact ⟨by decide, h.1 0, by simpa using h.2 3 2 0 0⟩

/-- Counting helper: in the range of length m + 1 every index except the
final one differs from m. -/
theorem countP_range_ne_last (m : Nat) :
    (List.range (m + 1)).countP (fun j => !(m == j)) = m := by
  rw [List.range_succ, List.countP_append]
  have h1 : (List.range m).countP (fun j => !(m == j)) = m := by
    have hall : ∀ a ∈ List.range m, (fun j => !(m == j)) a = true := by
      intro a ha
      have hlt : a < m := List.mem_range.mp ha
      have hne : m ≠ a := by omega
      simp [hne]
    rw [List.countP_eq_length.mpr hall, List.length_range]
  rw [h1]
  simp

/-- C5: on every successful run the record separator is carried by
exactly totalRecords - 1 write events when totalRecords is at least one,
and by none when totalRecords is zero: the loop appends the separator to
every record write except the one at the last index. -/
theorem c5_separator_count (vals : Nat → Nat → String) (reg : Registry)
    (template : String) (totalRecords : Nat) (lang : String) (ext : Extension)
    (evs : List WriteArg)
    (h : execute vals reg template totalRecords lang ext = (evs, none)) :
    (1 ≤ totalRecords → sepWriteCount evs = totalRecords - 1) ∧
    (totalRecords = 0 → sepWriteCount evs = 0) := by
  unfold execute at h
  split at h
  · cases h
  · next key hKey =>
    split at h
    · cases h
    · next fmt hF =>
      dsimp only at h
      split at h
      · cases h
      · next hR =>
        injection h with h1 h2
        cases totalRecords with
        | zero =>
          subst h1
          refine ⟨fun habs => by omega, fun _ => ?_⟩
          simp [sepWriteCount, nullishHeaderWrite, runLoopAux,
            List.countP_append, List.countP_cons, WriteArg.hasSep]
        | succ m =>
          cases hV : isValidTemplate vals lang (lookupFaker reg key)
              fmt.2.2.2 0 with
          | error e =>
            rw [runLoopAux, hV] at hR
            cases hR
          | ok p =>
            obtain ⟨entries, hv⟩ :=
              isValidTemplate_ok_inv vals lang (lookupFaker reg key)
                fmt.2.2.2 0 p hV
            have hloop := runLoopAux_ok vals lang (lookupFaker reg key)
              fmt.2.2.2 (m + 1) entries hv (m + 1) 0 0
            subst h1
            refine ⟨fun _ => ?_, fun habs => by cases habs⟩
            rw [hloop]
            simp only [sepWriteCount, nullishHeaderWrite, List.nil_append,
              List.countP_append, List.countP_map]
            have hfun : ((fun e => WriteArg.hasSep e) ∘ fun j =>
                WriteArg.recordW
                  (render (buildCtx vals entries (0 + j * entries.length)).1
                    fmt.2.2.2)
                  (!(m + 1 - 1 == 0 + j))) = fun j => !(m == j) := by
              funext j
              simp [WriteArg.hasSep, Function.comp]
            rw [hfun, countP_range_ne_last]
            simp [WriteArg.hasSep]

/-- C5 witness: a three record run writes the separator exactly twice. -/
theorem c5_separator_count_witness :
    (1 : Nat) ≤ 3 ∧
    sepWriteCount [WriteArg.recordW "x" true, WriteArg.recordW "x" true,
      WriteArg.recordW "x" false, WriteArg.footerW ""] = 3 - 1 := by
  have h := c5_separator_count valsConst enRegistry "x" 3 "en"
    Extension.default
    [WriteArg.recordW "x" true, WriteArg.recordW "x" true,
     WriteArg.recordW "x" false, WriteArg.footerW ""] (by decide)
  exact ⟨by decide, h.1 (by decide)⟩

/-- An error raised while validating one tag is never InvalidCsvTemplate. -/
theorem validateTag_err_ne_csv (lang : String) (faker : Faker) (tag : String)
    (e : Err) (h : validateTag lang faker tag = .error e) :
    e ≠ Err.invalidCsvTemplate := by
  unfold validateTag at h
  repeat' split at h
  all_goals cases h
  all_goals exact fun hc => Err.noConfusion hc

/-- An error raised by the validation pass is never InvalidCsvTemplate. -/
theorem validateTags_err_ne_csv (lang : String) (faker : Faker)
    (tags : List String) (e : Err)
    (h : validateTags lang faker tags = .error e) :
    e ≠ Err.invalidCsvTemplate := by
  induction tags with
  | nil => simp [validateTags] at h
  | cons t ts ih =>
    rw [validateTags] at h
    split at h
    · next e1 hT =>
      injection h with he
      subst he
      exact validateTag_err_ne_csv lang faker t e1 hT
    · split at h
      · next e1 hTs =>
        injection h with he
        subst he
        exact ih hTs
      · cases h

/-- An error raised by the record loop is never InvalidCsvTemplate. -/
theorem runLoopAux_err_ne_csv (vals : Nat → Nat → String) (lang : String)
    (faker : Faker) (rt : String) (total : Nat) :
    ∀ (k i n : Nat) (evs : List WriteArg) (n1 : Nat) (e : Err),
      runLoopAux vals lang faker rt total k i n = (evs, n1, some e) →
      e ≠ Err.invalidCsvTemplate := by
  intro k
  induction k with
  | zero =>
    intro i n evs n1 e h
    rw [runLoopAux] at h
    injection h with h1 h2
    injection h2 with h3 h4
    cases h4
  | succ k ih =>
    intro i n evs n1 e h
    rw [runLoopAux] at h
    split at h
    · next e1 hV =>
      injection h with h1 h2
      injection h2 with h3 h4
      injection h4 with he
      subst he
      unfold isValidTemplate at hV
      split at hV
      · next e2 hv2 =>
        injection hV with he2
        subst he2
        exact validateTags_err_ne_csv lang faker
          (extractMustacheTags rt) e2 hv2
      · cases hV
    · next ctxn hV =>
      dsimp only at h
      injection h with h1 h2
      injection h2 with h3 h4
      exact ih (i + 1) ctxn.2
        (runLoopAux vals lang faker rt total k (i + 1) ctxn.2).1
        (runLoopAux vals lang faker rt total k (i + 1) ctxn.2).2.1 e
        (by rw [← h4])

/-- C6: with a valid locale and the csv selector, the run fails with
InvalidCsvTemplate exactly when splitting the raw template on the newline
character yields a number of lines different from two; on exactly two
lines the format adapter succeeds, taking the first line verbatim as the
header and the second line as the per record template. -/
theorem c6_csv_two_lines (vals : Nat → Nat → String) (reg : Registry)
    (t : String) (totalRecords : Nat) (lang : String)
    (hL : langInAllFakers reg lang = true) :
    ((execute vals reg t totalRecords lang Extension.csv).2
        = some Err.invalidCsvTemplate ↔ (jsSplit t '\n').length ≠ 2) ∧
    ((jsSplit t '\n').length = 2 →
      getFileFormat t Extension.csv
        = .ok ((jsSplit t '\n')[0]?.getD "", "", "\n",
            (jsSplit t '\n')[1]?.getD "")) := by
  have hloc : isValidLocale reg lang = .ok lang := by
    simp [isValidLocale, hL]
  by_cases hlen : (jsSplit t '\n').length = 2
  · have hF : getFileFormat t Extension.csv
        = .ok ((jsSplit t '\n')[0]?.getD "", "", "\n",
            (jsSplit t '\n')[1]?.getD "") := by
      unfold getFileFormat
      simp [hlen]
    refine ⟨?_, fun _ => hF⟩
    constructor
    · intro habs
      unfold execute at habs
      rw [hloc] at habs
      dsimp only at habs
      rw [hF] at habs
      dsimp only at habs
      split at habs
      · next e hR =>
        dsimp only at habs
        injection habs with he
        subst he
        exact absurd rfl
          (runLoopAux_err_ne_csv vals lang (lookupFaker reg lang)
            ((jsSplit t '\n')[1]?.getD "") totalRecords totalRecords 0 0 _ _ _
            (by rw [← hR]))
      · next hR =>
        dsimp only at habs
        cases habs
    · intro hne
      exact absurd hlen hne
  · have hF : getFileFormat t Extension.csv
        = .error Err.invalidCsvTemplate := by
      unfold getFileFormat
      simp [hlen]
    have hexec : execute vals reg t totalRecords lang Extension.csv
        = ([], some Err.invalidCsvTemplate) := by
      unfold execute
      rw [hloc]
      dsimp only
      rw [hF]
    refine ⟨?_, fun h2 => absurd h2 hlen⟩
    rw [hexec]
    simpa using hlen

/-- C6 witness: a one line template fails the run with InvalidCsvTemplate
and a two line template yields its first line as header and its second as
record template. -/
theorem c6_csv_two_lines_witness :
    langInAllFakers enRegistry "en" = true ∧
    (execute valsConst enRegistry "abc" 1 "en" Extension.csv).2
      = some Err.invalidCsvTemplate ∧
    getFileFormat "a\nb" Extension.csv = .ok ("a", "", "\n", "b") := by
  have h1 := c6_csv_two_lines valsConst enRegistry "abc" 1 "en" (by decide)
  have h2 := c6_csv_two_lines valsConst enRegistry "a\nb" 1 "en" (by decide)
  refine ⟨by decide, h1.1.mpr (by decide), ?_⟩
  have h3 := h2.2 (by decide)
  rw [h3]
  decide

/-- A successful tail match returns the capture as a string and the
capture is nonempty. -/
theorem finishTagMatch_some (tagChars rest4 : List Char) (tag : String)
    (rest : List Char) (h : finishTagMatch tagChars rest4 = some (tag, rest)) :
    tag = String.mk tagChars ∧ tagChars ≠ [] := by
  unfold finishTagMatch at h
  split at h
  · cases h
  · next hne =>
    dsimp only at h
    split at h
    · split at h
      · injection h with hpair
        injection hpair with htag hrest
        refine ⟨htag.symm, fun h2 => hne ?_⟩
        rw [h2]
        rfl
      · cases h
    · cases h

/-- A successful match of the pattern body yields a capture that is
nonempty and made only of word or dot characters. -/
theorem matchAfterBraces_some (b : Bool) (r : List Char) (tag : String)
    (rest : List Char) (h : matchAfterBraces b r = some (tag, rest)) :
    tag ≠ "" ∧ tag.data.all isWordDotChar := by
  unfold matchAfterBraces at h
  dsimp only at h
  obtain ⟨htag, hne⟩ := finishTagMatch_some _ _ tag rest h
  subst htag
  constructor
  · intro heq
    exact hne (congrArg String.data heq)
  · refine List.all_eq_true.mpr ?_
    intro c hc
    exact List.mem_takeWhile_imp hc

/-- A successful match of the whole pattern yields a capture that is
nonempty and made only of word or dot characters. -/
theorem matchTagAt_some (b : Bool) (l : List Char) (tag : String)
    (rest : List Char) (h : matchTagAt b l = some (tag, rest)) :
    tag ≠ "" ∧ tag.data.all isWordDotChar := by
  unfold matchTagAt at h
  split at h
  · split at h
    · exact matchAfterBraces_some b _ tag rest h
    · cases h
  · cases h

/-- Membership after a set insertion. -/
theorem mem_addToSet (acc : List String) (t x : String)
    (h : x ∈ addToSet acc t) : x ∈ acc ∨ x = t := by
  unfold addToSet at h
  split at h
  · exact Or.inl h
  · rcases List.mem_append.mp h with h1 | h1
    · exact Or.inl h1
    · exact Or.inr (List.mem_singleton.mp h1)

/-- Set insertion preserves distinctness. -/
theorem addToSet_nodup (acc : List String) (t : String) (h : acc.Nodup) :
    (addToSet acc t).Nodup := by
  unfold addToSet
  split
  · exact h
  · next hmem =>
    refine List.Nodup.append h (List.nodup_singleton t) ?_
    intro a ha hb
    rw [List.mem_singleton] at hb
    subst hb
    exact hmem ha

/-- Every string produced by the extraction scan is either carried over
from the accumulator or is a nonempty capture of word or dot characters. -/
theorem extractLoopF_mem : ∀ (fuel : Nat) (chars : List Char)
    (acc : List String) (x : String), x ∈ extractLoopF fuel chars acc →
    x ∈ acc ∨ (x ≠ "" ∧ x.data.all isWordDotChar) := by
  intro fuel
  induction fuel with
  | zero =>
    intro chars acc x h
    rw [extractLoopF] at h
    exact Or.inl h
  | succ fuel ih =>
    intro chars acc x h
    cases chars with
    | nil =>
      rw [extractLoopF] at h
      exact Or.inl h
    | cons c cs =>
      rw [extractLoopF] at h
      cases hm : matchTagAt true (c :: cs) with
      | some pr =>
        obtain ⟨tag, rest⟩ := pr
        rw [hm] at h
        rcases ih rest (addToSet acc tag) x h with h1 | h1
        · rcases mem_addToSet acc tag x h1 with h2 | h2
          · exact Or.inl h2
          · subst h2
            exact Or.inr (matchTagAt_some true (c :: cs) x rest hm)
        · exact Or.inr h1
      | none =>
        rw [hm] at h
        exact ih cs acc x h

/-- The extraction scan keeps the accumulated captures distinct. -/
theorem extractLoopF_nodup : ∀ (fuel : Nat) (chars : List Char)
    (acc : List String), acc.Nodup → (extractLoopF fuel chars acc).Nodup := by
  intro fuel
  induction fuel with
  | zero =>
    intro chars acc h
    rw [extractLoopF]
    exact h
  | succ fuel ih =>
    intro chars acc h
    cases chars with
    | nil =>
      rw [extractLoopF]
      exact h
    | cons c cs =>
      rw [extractLoopF]
      cases hm : matchTagAt true (c :: cs) with
      | some pr =>
        obtain ⟨tag, rest⟩ := pr
        exact ih rest (addToSet acc tag) (addToSet_nodup acc tag h)
      | none =>
        exact ih cs acc h

/-- C8: extraction is a total function of the template, so two calls on
the same template return the same set; the result never holds a
duplicate, and every extracted tag is nonempty and consists only of word
characters and dots, which is the shape of the capture group of the
double brace pattern after any control character is stripped. -/
theorem c8_extraction_wellformed (t : String) :
    (extractMustacheTags t).Nodup ∧
    ∀ tag ∈ extractMustacheTags t, tag ≠ "" ∧ tag.data.all isWordDotChar := by
  constructor
  · exact List.Nodup.filter _
      (extractLoopF_nodup t.data.length t.data [] List.nodup_nil)
  · intro tag htag
    have h1 : tag ∈ extractLoopF t.data.length t.data [] :=
      (List.mem_filter.mp htag).1
    rcases extractLoopF_mem t.data.length t.data [] tag h1 with h2 | h2
    · cases h2
    · exact h2

/-- C8 witness: the dotted tag of a simple template is nonempty and is
made of word or dot characters, and the extracted set is duplicate
free. -/
theorem c8_extraction_wellformed_witness :
    ("a.b" ≠ "" ∧ "a.b".data.all isWordDotChar) ∧
    (extractMustacheTags "\x7b\x7ba.b\x7d\x7d").Nodup :=
  ⟨(c8_extraction_wellformed "\x7b\x7ba.b\x7d\x7d").2 "a.b" (by decide),
   (c8_extraction_wellformed "\x7b\x7ba.b\x7d\x7d").1⟩

end Fake
